import Mathlib

/-!
Verification of the handshake metadata layer of `src/mechanism.cpp` (libzmq):
the TLV property codec, the metadata dispatcher `parse_metadata`, the socket
type compatibility check and the basic property set builder.

Modelling conventions:
* byte buffers are `List Nat`; a byte read through an `unsigned char` is
  reduced `% 256`, which is the identity on real byte buffers and keeps the
  model total on arbitrary naturals;
* `zmq_assert` failures (fatal process aborts on contract violations) are
  modelled as `none` results of encoding functions;
* the overridable virtual hook `mechanism_t::property` is a function
  parameter `hook`; the default implementation is the definition `property`;
* the loop of `parse_metadata` is written with an explicit fuel argument so
  that the function evaluates by kernel reduction; the wrapper instantiates
  the fuel with the buffer length, which is always sufficient because every
  iteration consumes at least one byte (in fact at least five, see the
  termination theorem).
-/

/-- ASCII byte values of a string literal (every name in this file is ASCII). -/
def strBytes (s : String) : List Nat := s.data.map Char.toNat

/-- Property name constant `ZMTP_PROPERTY_SOCKET_TYPE` ("Socket-Type"). -/
def ZMTP_PROPERTY_SOCKET_TYPE : List Nat := strBytes "Socket-Type"

/-- Property name constant `ZMTP_PROPERTY_IDENTITY` ("Identity"). -/
def ZMTP_PROPERTY_IDENTITY : List Nat := strBytes "Identity"

/-- Modelled from the spec: `ZMQ_MSG_PROPERTY_USER_ID` is declared in zmq.h,
which is not under src/; spec uses the key "User-Id" (section 4.4). -/
def ZMQ_MSG_PROPERTY_USER_ID : List Nat := strBytes "User-Id"

/-- Modelled from the spec: numeric socket role codes come from zmq.h, which is
not under src/. The spec (section 6) fixes the table index 0:PAIR .. 18:DGRAM,
matching the `names` array of `socket_type_string`. -/
def ZMQ_PAIR : Nat := 0

/-- Role code of PUB (see `ZMQ_PAIR`). -/
def ZMQ_PUB : Nat := 1

/-- Role code of SUB (see `ZMQ_PAIR`). -/
def ZMQ_SUB : Nat := 2

/-- Role code of REQ (see `ZMQ_PAIR`). -/
def ZMQ_REQ : Nat := 3

/-- Role code of REP (see `ZMQ_PAIR`). -/
def ZMQ_REP : Nat := 4

/-- Role code of DEALER (see `ZMQ_PAIR`). -/
def ZMQ_DEALER : Nat := 5

/-- Role code of ROUTER (see `ZMQ_PAIR`). -/
def ZMQ_ROUTER : Nat := 6

/-- Role code of PULL (see `ZMQ_PAIR`). -/
def ZMQ_PULL : Nat := 7

/-- Role code of PUSH (see `ZMQ_PAIR`). -/
def ZMQ_PUSH : Nat := 8

/-- Role code of XPUB (see `ZMQ_PAIR`). -/
def ZMQ_XPUB : Nat := 9

/-- Role code of XSUB (see `ZMQ_PAIR`). -/
def ZMQ_XSUB : Nat := 10

/-- Role code of STREAM (see `ZMQ_PAIR`). -/
def ZMQ_STREAM : Nat := 11

/-- Role code of SERVER (see `ZMQ_PAIR`). -/
def ZMQ_SERVER : Nat := 12

/-- Role code of CLIENT (see `ZMQ_PAIR`). -/
def ZMQ_CLIENT : Nat := 13

/-- Role code of RADIO (see `ZMQ_PAIR`). -/
def ZMQ_RADIO : Nat := 14

/-- Role code of DISH (see `ZMQ_PAIR`). -/
def ZMQ_DISH : Nat := 15

/-- Role code of GATHER (see `ZMQ_PAIR`). -/
def ZMQ_GATHER : Nat := 16

/-- Role code of SCATTER (see `ZMQ_PAIR`). -/
def ZMQ_SCATTER : Nat := 17

/-- Role code of DGRAM (see `ZMQ_PAIR`). -/
def ZMQ_DGRAM : Nat := 18

/-- The static `names` array of `mechanism_t::socket_type_string`
(mechanism.cpp lines 76-81). -/
def socket_names : List String :=
  ["PAIR", "PUB", "SUB", "REQ", "REP",
   "DEALER", "ROUTER", "PULL", "PUSH",
   "XPUB", "XSUB", "STREAM",
   "SERVER", "CLIENT",
   "RADIO", "DISH",
   "GATHER", "SCATTER", "DGRAM"]

/-- `mechanism_t::socket_type_string` (mechanism.cpp lines 74-84): canonical
role name for a role code. The source asserts `0 <= socket_type <= 18`; the
assertion becomes a hypothesis of the theorems using this function. -/
def socket_type_string (socket_type : Nat) : List Nat :=
  strBytes (socket_names.getD socket_type "")

/-- Modelled from the spec: `put_uint32` of wire.hpp is not under src/; the
spec (sections 3 and 6) fixes the value length field as 4-byte big-endian. -/
def put_uint32 (n : Nat) : List Nat :=
  [n / 2 ^ 24 % 256, n / 2 ^ 16 % 256, n / 2 ^ 8 % 256, n % 256]

/-- Modelled from the spec: `get_uint32` of wire.hpp is not under src/; it
reads the first 4 bytes big-endian (spec sections 3 and 6). -/
def get_uint32 (l : List Nat) : Nat :=
  l.getD 0 0 % 256 * 2 ^ 24 + l.getD 1 0 % 256 * 2 ^ 16 +
    l.getD 2 0 % 256 * 2 ^ 8 + l.getD 3 0 % 256

/-- Static helper `property_len` (mechanism.cpp lines 86-89). -/
def property_len (name_len value_len : Nat) : Nat := 1 + name_len + 4 + value_len

/-- The byte image `mechanism_t::add_property` writes (mechanism.cpp lines
108-114): 1-byte name length, name bytes, 4-byte big-endian value length,
value bytes. -/
def encode_property (name value : List Nat) : List Nat :=
  name.length :: (name ++ put_uint32 value.length ++ value)

/-- `mechanism_t::add_property` (mechanism.cpp lines 98-117). The two
`zmq_assert`s (`name_len <= 255` from `::name_len`, `value_len <= 0x7FFFFFFF`)
abort the process on violation and are modelled as `none`. The capacity
assertion has no counterpart: the result is the written byte list itself, whose
length is the returned `total_len`. -/
def add_property (name value : List Nat) : Option (List Nat) :=
  if name.length ≤ 255 then
    if value.length ≤ 0x7FFFFFFF then some (encode_property name value)
    else none
  else none

/-- Association list modelling `metadata_t::dict_t`. The declaration
(metadata.hpp, not under src/) is a `std::map` from property name to value;
the spec (section 3) likewise fixes a mapping with unique keys. `dict_find`
returns the binding of a key, `dict_insert` models `std::map::insert`. -/
abbrev dict_t := List (List Nat × List Nat)

/-- Lookup in a property dictionary (first binding of the key). -/
def dict_find : dict_t → List Nat → Option (List Nat)
  | [], _ => none
  | (k, v) :: d, key => if k = key then some v else dict_find d key

/-- Semantics of `std::map::insert` as called at mechanism.cpp lines 65-66 and
220-227: the pair is inserted only if the key is not already present; an
insert with an existing key leaves the map unchanged (it does not overwrite). -/
def dict_insert (d : dict_t) (k v : List Nat) : dict_t :=
  if (dict_find d k).isSome then d else (k, v) :: d

/-- The configuration fields of `options_t` read by mechanism.cpp:
`type` (socket role code), `recv_routing_id` and the routing id bytes
(`routing_id` together with `routing_id_size`). -/
structure options_t where
  type : Nat
  recv_routing_id : Bool
  routing_id : List Nat
  deriving DecidableEq

/-- The state of a `mechanism_t` instance touched by mechanism.cpp: the
configuration, the peer routing id blob, the peer user id blob and the two
property dictionaries. -/
structure mechanism_t where
  options : options_t
  routing_id : List Nat
  user_id : List Nat
  zap_properties : dict_t
  zmtp_properties : dict_t
  deriving DecidableEq

/-- `mechanism_t::set_peer_routing_id` (mechanism.cpp lines 49-52). -/
def set_peer_routing_id (m : mechanism_t) (id : List Nat) : mechanism_t :=
  { m with routing_id := id }

/-- `mechanism_t::set_user_id` (mechanism.cpp lines 62-67): replaces the
user id blob and inserts ("User-Id", data) into `zap_properties`. -/
def set_user_id (m : mechanism_t) (data : List Nat) : mechanism_t :=
  { m with
    user_id := data,
    zap_properties := dict_insert m.zap_properties ZMQ_MSG_PROPERTY_USER_ID data }

/-- `mechanism_t::get_user_id` (mechanism.cpp lines 69-72). -/
def get_user_id (m : mechanism_t) : List Nat := m.user_id

/-- `mechanism_t::check_socket_type` (mechanism.cpp lines 244-287): the switch
on the local role code; every unlisted code (including `ZMQ_STREAM`) falls
through to `false`. -/
def check_socket_type (type_local : Nat) (type_ : List Nat) : Bool :=
  if type_local = ZMQ_REQ then
    type_ == strBytes "REP" || type_ == strBytes "ROUTER"
  else if type_local = ZMQ_REP then
    type_ == strBytes "REQ" || type_ == strBytes "DEALER"
  else if type_local = ZMQ_DEALER then
    type_ == strBytes "REP" || type_ == strBytes "DEALER" || type_ == strBytes "ROUTER"
  else if type_local = ZMQ_ROUTER then
    type_ == strBytes "REQ" || type_ == strBytes "DEALER" || type_ == strBytes "ROUTER"
  else if type_local = ZMQ_PUSH then
    type_ == strBytes "PULL"
  else if type_local = ZMQ_PULL then
    type_ == strBytes "PUSH"
  else if type_local = ZMQ_PUB then
    type_ == strBytes "SUB" || type_ == strBytes "XSUB"
  else if type_local = ZMQ_SUB then
    type_ == strBytes "PUB" || type_ == strBytes "XPUB"
  else if type_local = ZMQ_XPUB then
    type_ == strBytes "SUB" || type_ == strBytes "XSUB"
  else if type_local = ZMQ_XSUB then
    type_ == strBytes "PUB" || type_ == strBytes "XPUB"
  else if type_local = ZMQ_PAIR then
    type_ == strBytes "PAIR"
  else if type_local = ZMQ_SERVER then
    type_ == strBytes "CLIENT"
  else if type_local = ZMQ_CLIENT then
    type_ == strBytes "SERVER"
  else if type_local = ZMQ_RADIO then
    type_ == strBytes "DISH"
  else if type_local = ZMQ_DISH then
    type_ == strBytes "RADIO"
  else if type_local = ZMQ_GATHER then
    type_ == strBytes "SCATTER"
  else if type_local = ZMQ_SCATTER then
    type_ == strBytes "GATHER"
  else if type_local = ZMQ_DGRAM then
    type_ == strBytes "DGRAM"
  else false

/-- Default implementation of the virtual hook `mechanism_t::property`
(mechanism.cpp lines 236-242): it validates nothing and returns 0. -/
def property (_name _value : List Nat) : Int := 0

/-- Outcome of one `parse_metadata` call. The C++ function returns 0 on
success and -1 on failure with errno set: `errInvalidSocketType` models -1
with errno = EINVAL (incompatible Socket-Type, lines 210-213), `errProtocol`
models -1 with errno = EPROTO (stream does not consume the byte range exactly,
lines 229-232), `errHook` models -1 propagated from the property hook
(lines 216-218). -/
inductive ParseStatus where
  | ok
  | errInvalidSocketType
  | errProtocol
  | errHook
  deriving DecidableEq

/-- The insertion at mechanism.cpp lines 220-227: the decoded pair goes into
`zap_properties` when `zap_flag` is set, else into `zmtp_properties`. -/
def record_property (m : mechanism_t) (zap_flag : Bool) (name value : List Nat) :
    mechanism_t :=
  if zap_flag then
    { m with zap_properties := dict_insert m.zap_properties name value }
  else
    { m with zmtp_properties := dict_insert m.zmtp_properties name value }

/-- The while loop of `mechanism_t::parse_metadata` (mechanism.cpp lines
180-233), with the after-loop check `bytes_left > 0 -> EPROTO` inlined at
every loop exit. The fuel argument only forces structural recursion; the
wrapper `parse_metadata` passes the buffer length, which is always enough
fuel because each iteration consumes at least one byte. At the first break
(`bytes_left < name_length`) at least one byte remains, so that exit is
written as a direct protocol error. -/
def parse_metadata_loop (hook : List Nat → List Nat → Int) (zap_flag : Bool) :
    Nat → mechanism_t → List Nat → ParseStatus × mechanism_t
  | 0, m, ptr =>
    if 0 < ptr.length then (ParseStatus.errProtocol, m) else (ParseStatus.ok, m)
  | fuel + 1, m, ptr =>
    if 1 < ptr.length then
      let name_length := ptr.headD 0 % 256
      let r1 := ptr.tail
      if r1.length < name_length then (ParseStatus.errProtocol, m)
      else
        let name := r1.take name_length
        let r2 := r1.drop name_length
        if r2.length < 4 then
          if 0 < r2.length then (ParseStatus.errProtocol, m) else (ParseStatus.ok, m)
        else
          let value_length := get_uint32 r2
          let r3 := r2.drop 4
          if r3.length < value_length then
            if 0 < r3.length then (ParseStatus.errProtocol, m) else (ParseStatus.ok, m)
          else
            let value := r3.take value_length
            let r4 := r3.drop value_length
            if name = ZMTP_PROPERTY_IDENTITY ∧ m.options.recv_routing_id then
              parse_metadata_loop hook zap_flag fuel
                (record_property (set_peer_routing_id m value) zap_flag name value) r4
            else if name = ZMTP_PROPERTY_SOCKET_TYPE then
              if check_socket_type m.options.type value then
                parse_metadata_loop hook zap_flag fuel
                  (record_property m zap_flag name value) r4
              else (ParseStatus.errInvalidSocketType, m)
            else if hook name value = -1 then (ParseStatus.errHook, m)
            else
              parse_metadata_loop hook zap_flag fuel
                (record_property m zap_flag name value) r4
    else
      if 0 < ptr.length then (ParseStatus.errProtocol, m) else (ParseStatus.ok, m)

/-- `mechanism_t::parse_metadata` (mechanism.cpp lines 176-234), parameterised
by the virtual property hook. Returns the status together with the mechanism
state after the call. -/
def parse_metadata (hook : List Nat → List Nat → Int) (m : mechanism_t)
    (ptr_ : List Nat) (zap_flag : Bool) : ParseStatus × mechanism_t :=
  parse_metadata_loop hook zap_flag ptr_.length m ptr_

/-- `mechanism_t::add_basic_properties` (mechanism.cpp lines 127-146): the
Socket-Type property first, then the Identity property exactly for the local
roles REQ, DEALER and ROUTER. Assert failures inside `add_property` propagate
as `none`. -/
def add_basic_properties (opts : options_t) : Option (List Nat) :=
  match add_property ZMTP_PROPERTY_SOCKET_TYPE (socket_type_string opts.type) with
  | none => none
  | some st =>
    if opts.type = ZMQ_REQ ∨ opts.type = ZMQ_DEALER ∨ opts.type = ZMQ_ROUTER then
      match add_property ZMTP_PROPERTY_IDENTITY opts.routing_id with
      | none => none
      | some idp => some (st ++ idp)
    else some st

/-- `mechanism_t::basic_properties_len` (mechanism.cpp lines 148-157). -/
def basic_properties_len (opts : options_t) : Nat :=
  property_len ZMTP_PROPERTY_SOCKET_TYPE.length (socket_type_string opts.type).length +
    (if opts.type = ZMQ_REQ ∨ opts.type = ZMQ_DEALER ∨ opts.type = ZMQ_ROUTER then
      property_len ZMTP_PROPERTY_IDENTITY.length opts.routing_id.length
    else 0)

/-- Greedy frame decomposition of a buffer, used to state properties of
`parse_metadata`: the list of complete well-formed properties at the front of
the buffer (in order) together with the undecodable remainder. A property is
complete when, after its 1-byte name length, the name, the 4-byte value
length field and the declared value all fit in the remaining bytes, exactly
the conjunction of the three in-loop truncation checks of the source. -/
def frames_loop : Nat → List Nat → List (List Nat × List Nat) × List Nat
  | 0, l => ([], l)
  | _ + 1, [] => ([], [])
  | fuel + 1, b :: rest =>
    let n := b % 256
    let v := get_uint32 (rest.drop n)
    if n + 4 + v ≤ rest.length then
      let p := frames_loop fuel (rest.drop (n + 4 + v))
      ((rest.take n, (rest.drop (n + 4)).take v) :: p.1, p.2)
    else ([], b :: rest)

/-- Frame decomposition with sufficient fuel (see `frames_loop`). -/
def frames (l : List Nat) : List (List Nat × List Nat) × List Nat :=
  frames_loop l.length l

/-- The remainders after the greedy scan on which the source's loop exits
with `bytes_left = 0` and therefore reports success: the empty remainder; a
name-length byte whose name exactly exhausts the buffer (fewer than 4 bytes
would remain for the value length field); a complete header whose declared
value length exceeds the zero bytes remaining after it. A single leftover
byte, or 1-3 bytes after the name, or a partially present value, leave
`bytes_left > 0` and are protocol errors. -/
def benign_tail : List Nat → Bool
  | [] => true
  | [_] => false
  | b :: rest =>
    let n := b % 256
    if rest.length < n then false
    else if rest.length - n < 4 then rest.length - n == 0
    else rest.length - (n + 4) == 0

/-- Whether dispatching one decoded property succeeds for a mechanism with
local role `t`, routing id reception flag `recv` and property hook `hook`:
mirrors the branch structure at mechanism.cpp lines 205-219 (Identity storage
and the default-true hook never fail; Socket-Type fails exactly on an
incompatible role; other names fail exactly when the hook returns -1). -/
def dispatch_ok (t : Nat) (recv : Bool) (hook : List Nat → List Nat → Int)
    (name value : List Nat) : Bool :=
  if name = ZMTP_PROPERTY_IDENTITY ∧ recv then true
  else if name = ZMTP_PROPERTY_SOCKET_TYPE then check_socket_type t value
  else !(hook name value == -1)

/-- Follows the spec's words (sections 3 and 6): a property list is a
concatenation of complete properties, each a 1-byte name length, the name
bytes, a 4-byte big-endian value length and the value bytes, consuming the
entire byte range with zero remainder. -/
def spec_property_list_loop : Nat → List Nat → Bool
  | 0, l => l.isEmpty
  | _ + 1, [] => true
  | fuel + 1, b :: rest =>
    let n := b % 256
    let v := get_uint32 (rest.drop n)
    if n + 4 + v ≤ rest.length then
      spec_property_list_loop fuel (rest.drop (n + 4 + v))
    else false

/-- The spec's well-formedness predicate with sufficient fuel
(see `spec_property_list_loop`). -/
def spec_property_list (l : List Nat) : Bool :=
  spec_property_list_loop l.length l

/-- Follows the spec's words: the compatibility table of section 4.3, one row
per listed local role (codes per the fixed role name table of section 6);
any unlisted local role accepts no peer role name. -/
def spec_compatibility (local_role : Nat) (peer : List Nat) : Bool :=
  if local_role = 0 then peer == strBytes "PAIR"
  else if local_role = 3 then peer == strBytes "REP" || peer == strBytes "ROUTER"
  else if local_role = 4 then peer == strBytes "REQ" || peer == strBytes "DEALER"
  else if local_role = 5 then
    peer == strBytes "REP" || peer == strBytes "DEALER" || peer == strBytes "ROUTER"
  else if local_role = 6 then
    peer == strBytes "REQ" || peer == strBytes "DEALER" || peer == strBytes "ROUTER"
  else if local_role = 8 then peer == strBytes "PULL"
  else if local_role = 7 then peer == strBytes "PUSH"
  else if local_role = 1 then peer == strBytes "SUB" || peer == strBytes "XSUB"
  else if local_role = 2 then peer == strBytes "PUB" || peer == strBytes "XPUB"
  else if local_role = 9 then peer == strBytes "SUB" || peer == strBytes "XSUB"
  else if local_role = 10 then peer == strBytes "PUB" || peer == strBytes "XPUB"
  else if local_role = 12 then peer == strBytes "CLIENT"
  else if local_role = 13 then peer == strBytes "SERVER"
  else if local_role = 14 then peer == strBytes "DISH"
  else if local_role = 15 then peer == strBytes "RADIO"
  else if local_role = 16 then peer == strBytes "SCATTER"
  else if local_role = 17 then peer == strBytes "GATHER"
  else if local_role = 18 then peer == strBytes "DGRAM"
  else false

/-- A concrete mechanism used by counterexamples and witnesses: local role
PAIR, routing id reception disabled, empty blobs and dictionaries. -/
def mech0 : mechanism_t :=
  { options := { type := 0, recv_routing_id := false, routing_id := [] },
    routing_id := [], user_id := [], zap_properties := [], zmtp_properties := [] }

/-- A concrete mechanism with local role REQ, used by counterexamples. -/
def mechREQ : mechanism_t :=
  { options := { type := 3, recv_routing_id := false, routing_id := [] },
    routing_id := [], user_id := [], zap_properties := [], zmtp_properties := [] }

/-- Relation between two mechanism states used in the induction on the parse
loop: relative to `m`, the state `m₂` leaves the dictionary not selected by
`flag` untouched, and every binding of the selected dictionary either was
already present in `m` or has a value shorter than 2^32 bytes. -/
def state_ok (flag : Bool) (m m₂ : mechanism_t) : Prop :=
  (flag = true → m₂.zmtp_properties = m.zmtp_properties) ∧
  (flag = false → m₂.zap_properties = m.zap_properties) ∧
  (∀ k w, dict_find m₂.zap_properties k = some w →
    dict_find m.zap_properties k = some w ∨ w.length < 2 ^ 32) ∧
  (∀ k w, dict_find m₂.zmtp_properties k = some w →
    dict_find m.zmtp_properties k = some w ∨ w.length < 2 ^ 32)

/-! Helper lemmas. -/

theorem get_uint32_put_uint32 (L : Nat) (t : List Nat) :
    get_uint32 (put_uint32 L ++ t) = L % 2 ^ 32 := by
  simp [get_uint32, put_uint32, List.getD]
  omega

theorem get_uint32_lt (l : List Nat) : get_uint32 l < 2 ^ 32 := by
  have h0 : l.getD 0 0 % 256 < 256 := Nat.mod_lt _ (by norm_num)
  have h1 : l.getD 1 0 % 256 < 256 := Nat.mod_lt _ (by norm_num)
  have h2 : l.getD 2 0 % 256 < 256 := Nat.mod_lt _ (by norm_num)
  have h3 : l.getD 3 0 % 256 < 256 := Nat.mod_lt _ (by norm_num)
  simp only [get_uint32]
  omega

theorem encode_property_length (name value : List Nat) :
    (encode_property name value).length = property_len name.length value.length := by
  simp [encode_property, put_uint32, property_len]
  omega

@[simp] theorem record_property_options (m : mechanism_t) (f : Bool) (a b : List Nat) :
    (record_property m f a b).options = m.options := by
  unfold record_property
  split <;> rfl

@[simp] theorem set_peer_routing_id_options (m : mechanism_t) (id : List Nat) :
    (set_peer_routing_id m id).options = m.options := rfl

@[simp] theorem set_peer_routing_id_zap (m : mechanism_t) (id : List Nat) :
    (set_peer_routing_id m id).zap_properties = m.zap_properties := rfl

@[simp] theorem set_peer_routing_id_zmtp (m : mechanism_t) (id : List Nat) :
    (set_peer_routing_id m id).zmtp_properties = m.zmtp_properties := rfl

@[simp] theorem record_property_zmtp_true (m : mechanism_t) (a b : List Nat) :
    (record_property m true a b).zmtp_properties = m.zmtp_properties := rfl

@[simp] theorem record_property_zap_false (m : mechanism_t) (a b : List Nat) :
    (record_property m false a b).zap_properties = m.zap_properties := rfl

@[simp] theorem record_property_zap_true (m : mechanism_t) (a b : List Nat) :
    (record_property m true a b).zap_properties = dict_insert m.zap_properties a b := rfl

@[simp] theorem record_property_zmtp_false (m : mechanism_t) (a b : List Nat) :
    (record_property m false a b).zmtp_properties = dict_insert m.zmtp_properties a b := rfl

theorem dict_find_insert (d : dict_t) (k v key w : List Nat)
    (h : dict_find (dict_insert d k v) key = some w) :
    dict_find d key = some w ∨ w = v := by
  unfold dict_insert at h
  split at h
  · exact Or.inl h
  · unfold dict_find at h
    split at h
    · right
      exact (Option.some_inj.mp h).symm
    · exact Or.inl h

theorem dict_find_insert_of_found (d : dict_t) (k v w : List Nat)
    (h : dict_find d k = some w) : dict_find (dict_insert d k v) k = some w := by
  unfold dict_insert
  rw [if_pos (by rw [h]; rfl)]
  exact h

theorem dict_insert_of_found (d : dict_t) (k v : List Nat)
    (h : (dict_find d k).isSome) : dict_insert d k v = d := by
  unfold dict_insert
  rw [if_pos h]

theorem take_app (l1 l2 : List Nat) : (l1 ++ l2).take l1.length = l1 :=
  List.take_left l1 l2

theorem drop_app (l1 l2 : List Nat) : (l1 ++ l2).drop l1.length = l2 :=
  List.drop_left l1 l2

theorem parse_metadata_loop_congr (hook : List Nat → List Nat → Int) (flag : Bool) :
    ∀ f g m ptr, ptr.length ≤ 5 * f + 1 → ptr.length ≤ 5 * g + 1 →
      parse_metadata_loop hook flag f m ptr = parse_metadata_loop hook flag g m ptr := by
  intro f
  induction f with
  | zero =>
    intro g m ptr hf hg
    cases g with
    | zero => rfl
    | succ g =>
      rcases ptr with _ | ⟨x, _ | ⟨y, rest⟩⟩
      · simp [parse_metadata_loop]
      · simp [parse_metadata_loop]
      · simp at hf
  | succ f ih =>
    intro g m ptr hf hg
    cases g with
    | zero =>
      rcases ptr with _ | ⟨x, _ | ⟨y, rest⟩⟩
      · simp [parse_metadata_loop]
      · simp [parse_metadata_loop]
      · simp at hg
    | succ g =>
      simp only [parse_metadata_loop]
      by_cases h1 : 1 < ptr.length
      · rw [if_pos h1, if_pos h1]
        split
        · rfl
        · split
          · split <;> rfl
          · split
            · split <;> rfl
            · split
              · apply ih
                · simp only [List.length_drop, List.length_tail]
                  omega
                · simp only [List.length_drop, List.length_tail]
                  omega
              · split
                · split
                  · apply ih
                    · simp only [List.length_drop, List.length_tail]
                      omega
                    · simp only [List.length_drop, List.length_tail]
                      omega
                  · rfl
                · split
                  · rfl
                  · apply ih
                    · simp only [List.length_drop, List.length_tail]
                      omega
                    · simp only [List.length_drop, List.length_tail]
                      omega
      · rw [if_neg h1, if_neg h1]

theorem frames_loop_congr :
    ∀ f g l, l.length ≤ f → l.length ≤ g → frames_loop f l = frames_loop g l := by
  intro f
  induction f with
  | zero =>
    intro g l hf hg
    have : l = [] := List.eq_nil_of_length_eq_zero (Nat.le_zero.mp hf)
    subst this
    cases g <;> rfl
  | succ f ih =>
    intro g l hf hg
    match l with
    | [] => cases g <;> rfl
    | b :: rest =>
      cases g with
      | zero => simp at hg
      | succ g =>
        simp only [frames_loop]
        split
        · rw [ih g (rest.drop _) (by simp only [List.length_drop]; simp at hf; omega)
            (by simp only [List.length_drop]; simp at hg; omega)]
        · rfl

theorem frames_nil : frames [] = ([], []) := rfl

theorem frames_cons_incomplete (b : Nat) (rest : List Nat)
    (h : ¬ b % 256 + 4 + get_uint32 (rest.drop (b % 256)) ≤ rest.length) :
    frames (b :: rest) = ([], b :: rest) := by
  unfold frames
  simp only [List.length_cons, frames_loop]
  rw [if_neg h]

theorem frames_cons_complete (b : Nat) (rest : List Nat)
    (h : b % 256 + 4 + get_uint32 (rest.drop (b % 256)) ≤ rest.length) :
    frames (b :: rest) =
      ((rest.take (b % 256),
        (rest.drop (b % 256 + 4)).take (get_uint32 (rest.drop (b % 256)))) ::
          (frames (rest.drop (b % 256 + 4 + get_uint32 (rest.drop (b % 256))))).1,
        (frames (rest.drop (b % 256 + 4 + get_uint32 (rest.drop (b % 256))))).2) := by
  unfold frames
  simp only [List.length_cons, frames_loop]
  rw [if_pos h,
    frames_loop_congr rest.length (rest.drop (b % 256 + 4 + get_uint32 (rest.drop (b % 256)))).length
      (rest.drop (b % 256 + 4 + get_uint32 (rest.drop (b % 256))))
      (by simp only [List.length_drop]; omega) le_rfl]

theorem parse_loop_break1 (hook : List Nat → List Nat → Int) (flag : Bool) (fuel : Nat)
    (m : mechanism_t) (b : Nat) (rest : List Nat) (h1 : 1 < (b :: rest : List Nat).length)
    (h2 : rest.length < b % 256) :
    parse_metadata_loop hook flag (fuel + 1) m (b :: rest) = (ParseStatus.errProtocol, m) := by
  simp only [parse_metadata_loop, List.headD_cons, List.tail_cons]
  rw [if_pos h1, if_pos h2]

theorem parse_loop_break2 (hook : List Nat → List Nat → Int) (flag : Bool) (fuel : Nat)
    (m : mechanism_t) (b : Nat) (rest : List Nat) (h1 : 1 < (b :: rest : List Nat).length)
    (h2 : ¬ rest.length < b % 256) (h3 : (rest.drop (b % 256)).length < 4) :
    parse_metadata_loop hook flag (fuel + 1) m (b :: rest) =
      if 0 < (rest.drop (b % 256)).length then (ParseStatus.errProtocol, m)
      else (ParseStatus.ok, m) := by
  simp only [parse_metadata_loop, List.headD_cons, List.tail_cons]
  rw [if_pos h1, if_neg h2, if_pos h3]

theorem parse_loop_break3 (hook : List Nat → List Nat → Int) (flag : Bool) (fuel : Nat)
    (m : mechanism_t) (b : Nat) (rest : List Nat) (h1 : 1 < (b :: rest : List Nat).length)
    (h2 : ¬ rest.length < b % 256) (h3 : ¬ (rest.drop (b % 256)).length < 4)
    (h4 : ((rest.drop (b % 256)).drop 4).length < get_uint32 (rest.drop (b % 256))) :
    parse_metadata_loop hook flag (fuel + 1) m (b :: rest) =
      if 0 < ((rest.drop (b % 256)).drop 4).length then (ParseStatus.errProtocol, m)
      else (ParseStatus.ok, m) := by
  simp only [parse_metadata_loop, List.headD_cons, List.tail_cons]
  rw [if_pos h1, if_neg h2, if_neg h3, if_pos h4]

theorem parse_loop_step (hook : List Nat → List Nat → Int) (flag : Bool) (fuel : Nat)
    (m : mechanism_t) (b : Nat) (rest : List Nat) (h1 : 1 < (b :: rest : List Nat).length)
    (h2 : ¬ rest.length < b % 256) (h3 : ¬ (rest.drop (b % 256)).length < 4)
    (h4 : ¬ ((rest.drop (b % 256)).drop 4).length < get_uint32 (rest.drop (b % 256))) :
    parse_metadata_loop hook flag (fuel + 1) m (b :: rest) =
      (if rest.take (b % 256) = ZMTP_PROPERTY_IDENTITY ∧ m.options.recv_routing_id then
        parse_metadata_loop hook flag fuel
          (record_property
            (set_peer_routing_id m
              ((rest.drop (b % 256 + 4)).take (get_uint32 (rest.drop (b % 256)))))
            flag (rest.take (b % 256))
            ((rest.drop (b % 256 + 4)).take (get_uint32 (rest.drop (b % 256)))))
          (rest.drop (b % 256 + 4 + get_uint32 (rest.drop (b % 256))))
      else if rest.take (b % 256) = ZMTP_PROPERTY_SOCKET_TYPE then
        if check_socket_type m.options.type
            ((rest.drop (b % 256 + 4)).take (get_uint32 (rest.drop (b % 256)))) then
          parse_metadata_loop hook flag fuel
            (record_property m flag (rest.take (b % 256))
              ((rest.drop (b % 256 + 4)).take (get_uint32 (rest.drop (b % 256)))))
            (rest.drop (b % 256 + 4 + get_uint32 (rest.drop (b % 256))))
        else (ParseStatus.errInvalidSocketType, m)
      else if hook (rest.take (b % 256))
          ((rest.drop (b % 256 + 4)).take (get_uint32 (rest.drop (b % 256)))) = -1 then
        (ParseStatus.errHook, m)
      else
        parse_metadata_loop hook flag fuel
          (record_property m flag (rest.take (b % 256))
            ((rest.drop (b % 256 + 4)).take (get_uint32 (rest.drop (b % 256)))))
          (rest.drop (b % 256 + 4 + get_uint32 (rest.drop (b % 256))))) := by
  simp only [parse_metadata_loop, List.headD_cons, List.tail_cons]
  rw [if_pos h1, if_neg h2, if_neg h3, if_neg h4]
  simp only [List.drop_drop]

theorem state_ok_refl (flag : Bool) (m : mechanism_t) : state_ok flag m m :=
  ⟨fun _ => rfl, fun _ => rfl, fun _ _ h => Or.inl h, fun _ _ h => Or.inl h⟩

theorem state_ok_trans (flag : Bool) (m m₂ m₃ : mechanism_t)
    (hab : state_ok flag m m₂) (hbc : state_ok flag m₂ m₃) : state_ok flag m m₃ := by
  obtain ⟨a1, a2, a3, a4⟩ := hab
  obtain ⟨b1, b2, b3, b4⟩ := hbc
  refine ⟨?_, ?_, ?_, ?_⟩
  · intro hf; rw [b1 hf, a1 hf]
  · intro hf; rw [b2 hf, a2 hf]
  · intro k w h
    rcases b3 k w h with h' | h'
    · exact a3 k w h'
    · exact Or.inr h'
  · intro k w h
    rcases b4 k w h with h' | h'
    · exact a4 k w h'
    · exact Or.inr h'

theorem state_ok_set_peer (flag : Bool) (m : mechanism_t) (id : List Nat) :
    state_ok flag m (set_peer_routing_id m id) :=
  ⟨fun _ => rfl, fun _ => rfl, fun _ _ h => Or.inl h, fun _ _ h => Or.inl h⟩

theorem state_ok_record (flag : Bool) (m : mechanism_t) (nm vl : List Nat)
    (hvl : vl.length < 2 ^ 32) : state_ok flag m (record_property m flag nm vl) := by
  cases flag with
  | true =>
    refine ⟨fun _ => rfl, fun h => by simp at h, ?_, fun _ _ h => Or.inl h⟩
    intro k w h
    simp only [record_property_zap_true] at h
    rcases dict_find_insert m.zap_properties nm vl k w h with h' | h'
    · exact Or.inl h'
    · right; rw [h']; exact hvl
  | false =>
    refine ⟨fun h => by simp at h, fun _ => rfl, fun _ _ h => Or.inl h, ?_⟩
    intro k w h
    simp only [record_property_zmtp_false] at h
    rcases dict_find_insert m.zmtp_properties nm vl k w h with h' | h'
    · exact Or.inl h'
    · right; rw [h']; exact hvl

theorem parse_loop_state (hook : List Nat → List Nat → Int) (flag : Bool) :
    ∀ fuel m ptr, state_ok flag m (parse_metadata_loop hook flag fuel m ptr).2 := by
  intro fuel
  induction fuel with
  | zero =>
    intro m ptr
    have h : (parse_metadata_loop hook flag 0 m ptr).2 = m := by
      simp only [parse_metadata_loop]
      split <;> rfl
    rw [h]
    exact state_ok_refl flag m
  | succ fuel ih =>
    intro m ptr
    rcases ptr with _ | ⟨b, rest⟩
    · have h : (parse_metadata_loop hook flag (fuel + 1) m []).2 = m := by
        simp [parse_metadata_loop]
      rw [h]
      exact state_ok_refl flag m
    by_cases h1 : 1 < (b :: rest : List Nat).length
    case neg =>
      have h : (parse_metadata_loop hook flag (fuel + 1) m (b :: rest)).2 = m := by
        simp only [parse_metadata_loop]
        rw [if_neg h1]
        split <;> rfl
      rw [h]
      exact state_ok_refl flag m
    case pos =>
    by_cases h2 : rest.length < b % 256
    · rw [parse_loop_break1 hook flag fuel m b rest h1 h2]
      exact state_ok_refl flag m
    by_cases h3 : (rest.drop (b % 256)).length < 4
    · rw [parse_loop_break2 hook flag fuel m b rest h1 h2 h3]
      split <;> exact state_ok_refl flag m
    by_cases h4 : ((rest.drop (b % 256)).drop 4).length < get_uint32 (rest.drop (b % 256))
    · rw [parse_loop_break3 hook flag fuel m b rest h1 h2 h3 h4]
      split <;> exact state_ok_refl flag m
    rw [parse_loop_step hook flag fuel m b rest h1 h2 h3 h4]
    have hvl : ((rest.drop (b % 256 + 4)).take (get_uint32 (rest.drop (b % 256)))).length <
        2 ^ 32 := by
      have := get_uint32_lt (rest.drop (b % 256))
      simp only [List.length_take]
      omega
    split
    · exact state_ok_trans flag m _ _
        (state_ok_trans flag m _ _ (state_ok_set_peer flag m _)
          (state_ok_record flag _ _ _ hvl))
        (ih _ _)
    split
    · split
      · exact state_ok_trans flag m _ _ (state_ok_record flag m _ _ hvl) (ih _ _)
      · exact state_ok_refl flag m
    split
    · exact state_ok_refl flag m
    · exact state_ok_trans flag m _ _ (state_ok_record flag m _ _ hvl) (ih _ _)

theorem benign_tail_cons2 (b c : Nat) (rest2 : List Nat) :
    benign_tail (b :: c :: rest2) =
      (if (c :: rest2 : List Nat).length < b % 256 then false
       else if (c :: rest2 : List Nat).length - b % 256 < 4 then
         ((c :: rest2 : List Nat).length - b % 256 == 0)
       else ((c :: rest2 : List Nat).length - (b % 256 + 4) == 0)) := rfl

theorem parse_loop_frames (hook : List Nat → List Nat → Int) (flag : Bool) :
    ∀ fuel ptr m, ptr.length ≤ fuel →
      (((parse_metadata_loop hook flag fuel m ptr).1 = ParseStatus.ok ↔
        ((∀ p ∈ (frames ptr).1,
            dispatch_ok m.options.type m.options.recv_routing_id hook p.1 p.2 = true) ∧
          benign_tail (frames ptr).2 = true)) ∧
      ((∀ p ∈ (frames ptr).1,
          dispatch_ok m.options.type m.options.recv_routing_id hook p.1 p.2 = true) →
        benign_tail (frames ptr).2 = false →
        (parse_metadata_loop hook flag fuel m ptr).1 = ParseStatus.errProtocol) ∧
      ((parse_metadata_loop hook flag fuel m ptr).1 = ParseStatus.ok → flag = true →
        (parse_metadata_loop hook flag fuel m ptr).2.zap_properties =
          (frames ptr).1.foldl (fun d p => dict_insert d p.1 p.2) m.zap_properties) ∧
      ((parse_metadata_loop hook flag fuel m ptr).1 = ParseStatus.ok → flag = false →
        (parse_metadata_loop hook flag fuel m ptr).2.zmtp_properties =
          (frames ptr).1.foldl (fun d p => dict_insert d p.1 p.2) m.zmtp_properties)) := by
  intro fuel
  induction fuel with
  | zero =>
    intro ptr m h
    have hnil : ptr = [] := List.eq_nil_of_length_eq_zero (Nat.le_zero.mp h)
    subst hnil
    have hres : parse_metadata_loop hook flag 0 m [] = (ParseStatus.ok, m) := by
      simp [parse_metadata_loop]
    rw [hres, frames_nil]
    refine ⟨by simp [benign_tail], ?_, by simp, by simp⟩
    intro _ hx
    exact Bool.noConfusion hx
  | succ fuel ih =>
    intro ptr m h
    rcases ptr with _ | ⟨b, _ | ⟨c, rest2⟩⟩
    · have hres : parse_metadata_loop hook flag (fuel + 1) m [] = (ParseStatus.ok, m) := by
        simp [parse_metadata_loop]
      rw [hres, frames_nil]
      refine ⟨by simp [benign_tail], ?_, by simp, by simp⟩
      intro _ hx
      exact Bool.noConfusion hx
    · have hres : parse_metadata_loop hook flag (fuel + 1) m [b] =
          (ParseStatus.errProtocol, m) := by
        simp [parse_metadata_loop]
      have hF : frames [b] = ([], [b]) :=
        frames_cons_incomplete b [] (by simp only [List.length_nil]; omega)
      have hB : benign_tail [b] = false := rfl
      rw [hres, hF, hB]
      exact ⟨⟨fun hok => ParseStatus.noConfusion hok, fun hx => Bool.noConfusion hx.2⟩,
        fun _ _ => rfl,
        fun hok _ => ParseStatus.noConfusion hok,
        fun hok _ => ParseStatus.noConfusion hok⟩
    have h1 : 1 < (b :: c :: rest2 : List Nat).length := by
      simp only [List.length_cons]
      omega
    by_cases h2 : (c :: rest2 : List Nat).length < b % 256
    · have hF : frames (b :: c :: rest2) = ([], b :: c :: rest2) :=
        frames_cons_incomplete b (c :: rest2) (by omega)
      have hB : benign_tail (b :: c :: rest2) = false := by
        rw [benign_tail_cons2, if_pos h2]
      rw [parse_loop_break1 hook flag fuel m b (c :: rest2) h1 h2, hF, hB]
      exact ⟨⟨fun hok => ParseStatus.noConfusion hok, fun hx => Bool.noConfusion hx.2⟩,
        fun _ _ => rfl,
        fun hok _ => ParseStatus.noConfusion hok,
        fun hok _ => ParseStatus.noConfusion hok⟩
    by_cases h3 : ((c :: rest2 : List Nat).drop (b % 256)).length < 4
    · have h3' : (c :: rest2 : List Nat).length - b % 256 < 4 := by
        simpa using h3
      have hF : frames (b :: c :: rest2) = ([], b :: c :: rest2) :=
        frames_cons_incomplete b (c :: rest2) (by omega)
      have hB : benign_tail (b :: c :: rest2) =
          ((c :: rest2 : List Nat).length - b % 256 == 0) := by
        rw [benign_tail_cons2, if_neg h2, if_pos h3']
      rw [parse_loop_break2 hook flag fuel m b (c :: rest2) h1 h2 h3, hF, hB]
      by_cases hz : 0 < ((c :: rest2 : List Nat).drop (b % 256)).length
      · have hbt : ((c :: rest2 : List Nat).length - b % 256 == 0) = false := by
          simp only [List.length_drop, List.length_cons] at hz
          simp only [List.length_cons]
          simp
          omega
        rw [if_pos hz, hbt]
        exact ⟨⟨fun hok => ParseStatus.noConfusion hok, fun hx => Bool.noConfusion hx.2⟩,
          fun _ _ => rfl,
          fun hok _ => ParseStatus.noConfusion hok,
          fun hok _ => ParseStatus.noConfusion hok⟩
      · have hbt : ((c :: rest2 : List Nat).length - b % 256 == 0) = true := by
          simp only [List.length_drop, List.length_cons] at hz
          simp only [List.length_cons]
          simp
          omega
        rw [if_neg hz, hbt]
        refine ⟨by simp, ?_, by simp, by simp⟩
        intro _ hx
        exact Bool.noConfusion hx
    by_cases h4 : (((c :: rest2 : List Nat).drop (b % 256)).drop 4).length <
        get_uint32 ((c :: rest2 : List Nat).drop (b % 256))
    · have h3'' : 4 ≤ (c :: rest2 : List Nat).length - b % 256 := by
        simp only [List.length_drop] at h3
        omega
      have h4' : (c :: rest2 : List Nat).length - (b % 256 + 4) <
          get_uint32 ((c :: rest2 : List Nat).drop (b % 256)) := by
        simp only [List.length_drop] at h4
        omega
      have hF : frames (b :: c :: rest2) = ([], b :: c :: rest2) :=
        frames_cons_incomplete b (c :: rest2) (by omega)
      have hB : benign_tail (b :: c :: rest2) =
          ((c :: rest2 : List Nat).length - (b % 256 + 4) == 0) := by
        rw [benign_tail_cons2, if_neg h2, if_neg (by omega)]
      rw [parse_loop_break3 hook flag fuel m b (c :: rest2) h1 h2 h3 h4, hF, hB]
      by_cases hz : 0 < (((c :: rest2 : List Nat).drop (b % 256)).drop 4).length
      · have hbt : ((c :: rest2 : List Nat).length - (b % 256 + 4) == 0) = false := by
          simp only [List.length_drop, List.length_cons] at hz
          simp only [List.length_cons]
          simp
          omega
        rw [if_pos hz, hbt]
        exact ⟨⟨fun hok => ParseStatus.noConfusion hok, fun hx => Bool.noConfusion hx.2⟩,
          fun _ _ => rfl,
          fun hok _ => ParseStatus.noConfusion hok,
          fun hok _ => ParseStatus.noConfusion hok⟩
      · have hbt : ((c :: rest2 : List Nat).length - (b % 256 + 4) == 0) = true := by
          simp only [List.length_drop, List.length_cons] at hz
          simp only [List.length_cons]
          simp
          omega
        rw [if_neg hz, hbt]
        refine ⟨by simp, ?_, by simp, by simp⟩
        intro _ hx
        exact Bool.noConfusion hx
    · have hcomp : b % 256 + 4 + get_uint32 ((c :: rest2 : List Nat).drop (b % 256)) ≤
          (c :: rest2 : List Nat).length := by
        simp only [List.length_drop] at h3 h4
        omega
      rw [parse_loop_step hook flag fuel m b (c :: rest2) h1 h2 h3 h4,
        frames_cons_complete b (c :: rest2) hcomp]
      set nm := (c :: rest2 : List Nat).take (b % 256) with hnm
      set vl := ((c :: rest2 : List Nat).drop (b % 256 + 4)).take
        (get_uint32 ((c :: rest2 : List Nat).drop (b % 256))) with hvldef
      set r4 := (c :: rest2 : List Nat).drop
        (b % 256 + 4 + get_uint32 ((c :: rest2 : List Nat).drop (b % 256))) with hr4
      have hr4len : r4.length ≤ fuel := by
        rw [hr4]
        simp only [List.length_drop, List.length_cons]
        simp only [List.length_cons] at h
        omega
      by_cases hid : nm = ZMTP_PROPERTY_IDENTITY ∧ m.options.recv_routing_id
      · rw [if_pos hid]
        have hD : dispatch_ok m.options.type m.options.recv_routing_id hook nm vl = true := by
          simp [dispatch_ok, hid.1, hid.2]
        obtain ⟨ih1, ih2, ih3, ih4⟩ :=
          ih r4 (record_property (set_peer_routing_id m vl) flag nm vl) hr4len
        simp only [record_property_options, set_peer_routing_id_options] at ih1 ih2 ih3 ih4
        refine ⟨?_, ?_, ?_, ?_⟩
        · rw [ih1]
          simp [List.forall_mem_cons, hD]
        · intro ha hb
          exact ih2 (List.forall_mem_cons.mp ha).2 hb
        · intro hok hf
          rw [ih3 hok hf]
          subst hf
          simp [List.foldl_cons]
        · intro hok hf
          rw [ih4 hok hf]
          subst hf
          simp [List.foldl_cons]
      rw [if_neg hid]
      by_cases hst : nm = ZMTP_PROPERTY_SOCKET_TYPE
      · rw [if_pos hst]
        by_cases hchk : check_socket_type m.options.type vl
        · rw [if_pos hchk]
          have hD : dispatch_ok m.options.type m.options.recv_routing_id hook nm vl = true := by
            simp only [dispatch_ok]
            rw [if_neg hid, if_pos hst]
            exact hchk
          obtain ⟨ih1, ih2, ih3, ih4⟩ := ih r4 (record_property m flag nm vl) hr4len
          simp only [record_property_options] at ih1 ih2 ih3 ih4
          refine ⟨?_, ?_, ?_, ?_⟩
          · rw [ih1]
            simp [List.forall_mem_cons, hD]
          · intro ha hb
            exact ih2 (List.forall_mem_cons.mp ha).2 hb
          · intro hok hf
            rw [ih3 hok hf]
            subst hf
            simp [List.foldl_cons]
          · intro hok hf
            rw [ih4 hok hf]
            subst hf
            simp [List.foldl_cons]
        · rw [if_neg hchk]
          have hD : dispatch_ok m.options.type m.options.recv_routing_id hook nm vl = false := by
            simp only [dispatch_ok]
            rw [if_neg hid, if_pos hst]
            exact Bool.eq_false_iff.mpr hchk
          refine ⟨?_, ?_, ?_, ?_⟩
          · constructor
            · intro hok
              exact ParseStatus.noConfusion hok
            · rintro ⟨hall, -⟩
              have hDt : dispatch_ok m.options.type m.options.recv_routing_id hook nm vl =
                  true := (List.forall_mem_cons.mp hall).1
              rw [hD] at hDt
              exact Bool.noConfusion hDt
          · intro ha _
            have hDt : dispatch_ok m.options.type m.options.recv_routing_id hook nm vl =
                true := (List.forall_mem_cons.mp ha).1
            rw [hD] at hDt
            exact Bool.noConfusion hDt
          · exact fun hok _ => ParseStatus.noConfusion hok
          · exact fun hok _ => ParseStatus.noConfusion hok
      rw [if_neg hst]
      by_cases hrc : hook nm vl = -1
      · rw [if_pos hrc]
        have hD : dispatch_ok m.options.type m.options.recv_routing_id hook nm vl = false := by
          simp only [dispatch_ok]
          rw [if_neg hid, if_neg hst]
          simp [hrc]
        refine ⟨?_, ?_, ?_, ?_⟩
        · constructor
          · intro hok
            exact ParseStatus.noConfusion hok
          · rintro ⟨hall, -⟩
            have hDt : dispatch_ok m.options.type m.options.recv_routing_id hook nm vl =
                true := (List.forall_mem_cons.mp hall).1
            rw [hD] at hDt
            exact Bool.noConfusion hDt
        · intro ha _
          have hDt : dispatch_ok m.options.type m.options.recv_routing_id hook nm vl =
              true := (List.forall_mem_cons.mp ha).1
          rw [hD] at hDt
          exact Bool.noConfusion hDt
        · exact fun hok _ => ParseStatus.noConfusion hok
        · exact fun hok _ => ParseStatus.noConfusion hok
      · rw [if_neg hrc]
        have hD : dispatch_ok m.options.type m.options.recv_routing_id hook nm vl = true := by
          simp only [dispatch_ok]
          rw [if_neg hid, if_neg hst]
          simp [hrc]
        obtain ⟨ih1, ih2, ih3, ih4⟩ := ih r4 (record_property m flag nm vl) hr4len
        simp only [record_property_options] at ih1 ih2 ih3 ih4
        refine ⟨?_, ?_, ?_, ?_⟩
        · rw [ih1]
          simp [List.forall_mem_cons, hD]
        · intro ha hb
          exact ih2 (List.forall_mem_cons.mp ha).2 hb
        · intro hok hf
          rw [ih3 hok hf]
          subst hf
          simp [List.foldl_cons]
        · intro hok hf
          rw [ih4 hok hf]
          subst hf
          simp [List.foldl_cons]

theorem drop_len_plus (l1 l2 : List Nat) (k : Nat) :
    (l1 ++ l2).drop (l1.length + k) = l2.drop k := by
  induction l1 with
  | nil => simp
  | cons a t ih => simp [Nat.succ_add, ih]

theorem encode_append_assoc (name value rest : List Nat) :
    encode_property name value ++ rest =
      name.length :: (name ++ (put_uint32 value.length ++ (value ++ rest))) := by
  simp [encode_property]

theorem encode_drop_name (name value rest : List Nat) (hn : name.length ≤ 255) :
    (name ++ (put_uint32 value.length ++ (value ++ rest))).drop (name.length % 256) =
      put_uint32 value.length ++ (value ++ rest) := by
  rw [Nat.mod_eq_of_lt (by omega)]
  exact drop_app name _

theorem encode_get_uint32 (name value rest : List Nat) (hn : name.length ≤ 255)
    (hv : value.length < 2 ^ 32) :
    get_uint32 ((name ++ (put_uint32 value.length ++ (value ++ rest))).drop
      (name.length % 256)) = value.length := by
  rw [encode_drop_name name value rest hn, get_uint32_put_uint32, Nat.mod_eq_of_lt hv]

theorem encode_take_name (name value rest : List Nat) (hn : name.length ≤ 255) :
    (name ++ (put_uint32 value.length ++ (value ++ rest))).take (name.length % 256) = name := by
  rw [Nat.mod_eq_of_lt (by omega)]
  exact take_app name _

theorem encode_drop_header (name value rest : List Nat) (hn : name.length ≤ 255) :
    (name ++ (put_uint32 value.length ++ (value ++ rest))).drop (name.length % 256 + 4) =
      value ++ rest := by
  rw [Nat.mod_eq_of_lt (by omega : name.length < 256), drop_len_plus name _ 4]
  simp [put_uint32]

theorem encode_take_value (name value rest : List Nat) (hn : name.length ≤ 255)
    (hv : value.length < 2 ^ 32) :
    ((name ++ (put_uint32 value.length ++ (value ++ rest))).drop (name.length % 256 + 4)).take
      (get_uint32 ((name ++ (put_uint32 value.length ++ (value ++ rest))).drop
        (name.length % 256))) = value := by
  rw [encode_get_uint32 name value rest hn hv, encode_drop_header name value rest hn]
  exact take_app value rest

theorem encode_drop_all (name value rest : List Nat) (hn : name.length ≤ 255)
    (hv : value.length < 2 ^ 32) :
    (name ++ (put_uint32 value.length ++ (value ++ rest))).drop
      (name.length % 256 + 4 + get_uint32 ((name ++ (put_uint32 value.length ++
        (value ++ rest))).drop (name.length % 256))) = rest := by
  rw [encode_get_uint32 name value rest hn hv,
    Nat.mod_eq_of_lt (by omega : name.length < 256), Nat.add_assoc,
    drop_len_plus name _ (4 + value.length)]
  have h4 : (4 : Nat) + value.length = (put_uint32 value.length).length + value.length := by
    simp [put_uint32]
  rw [h4, drop_len_plus (put_uint32 value.length) _ value.length]
  have hv' : value.length = value.length + 0 := by omega
  rw [hv', drop_len_plus value rest 0]
  rfl

theorem encode_rest_length (name value rest : List Nat) :
    (name ++ (put_uint32 value.length ++ (value ++ rest))).length =
      name.length + 4 + value.length + rest.length := by
  simp [put_uint32]
  omega

theorem frames_encode_cons (name value rest : List Nat) (hn : name.length ≤ 255)
    (hv : value.length < 2 ^ 32) :
    frames (encode_property name value ++ rest) =
      ((name, value) :: (frames rest).1, (frames rest).2) := by
  rw [encode_append_assoc]
  rw [frames_cons_complete _ _ (by
    rw [encode_get_uint32 name value rest hn hv, encode_rest_length,
      Nat.mod_eq_of_lt (by omega : name.length < 256)]
    omega)]
  rw [encode_take_name name value rest hn, encode_take_value name value rest hn hv,
    encode_drop_all name value rest hn hv]

theorem parse_metadata_encode_cons (hook : List Nat → List Nat → Int) (flag : Bool)
    (m : mechanism_t) (name value rest : List Nat) (hn : name.length ≤ 255)
    (hv : value.length < 2 ^ 32) :
    parse_metadata hook m (encode_property name value ++ rest) flag =
      (if name = ZMTP_PROPERTY_IDENTITY ∧ m.options.recv_routing_id then
        parse_metadata hook
          (record_property (set_peer_routing_id m value) flag name value) rest flag
      else if name = ZMTP_PROPERTY_SOCKET_TYPE then
        if check_socket_type m.options.type value then
          parse_metadata hook (record_property m flag name value) rest flag
        else (ParseStatus.errInvalidSocketType, m)
      else if hook name value = -1 then (ParseStatus.errHook, m)
      else parse_metadata hook (record_property m flag name value) rest flag) := by
  unfold parse_metadata
  rw [encode_append_assoc]
  have hlen : (name.length :: (name ++ (put_uint32 value.length ++ (value ++ rest))) :
      List Nat).length = (4 + name.length + value.length + rest.length) + 1 := by
    simp only [List.length_cons, encode_rest_length]
    omega
  rw [hlen]
  rw [parse_loop_step hook flag (4 + name.length + value.length + rest.length) m
    name.length (name ++ (put_uint32 value.length ++ (value ++ rest)))
    (by simp only [List.length_cons, encode_rest_length]; omega)
    (by rw [encode_rest_length]; omega)
    (by rw [encode_drop_name name value rest hn]; simp [put_uint32])
    (by
      rw [encode_get_uint32 name value rest hn hv, encode_drop_name name value rest hn]
      simp [put_uint32])]
  rw [encode_take_name name value rest hn, encode_take_value name value rest hn hv,
    encode_drop_all name value rest hn hv]
  rw [parse_metadata_loop_congr hook flag (4 + name.length + value.length + rest.length)
    rest.length _ rest (by omega) (by omega),
    parse_metadata_loop_congr hook flag (4 + name.length + value.length + rest.length)
    rest.length (record_property m flag name value) rest (by omega) (by omega)]

theorem parse_metadata_nil (hook : List Nat → List Nat → Int) (m : mechanism_t)
    (flag : Bool) : parse_metadata hook m [] flag = (ParseStatus.ok, m) := rfl

theorem parse_metadata_single (hook : List Nat → List Nat → Int) (m : mechanism_t)
    (flag : Bool) (x : Nat) :
    parse_metadata hook m [x] flag = (ParseStatus.errProtocol, m) := rfl

theorem parse_metadata_encode_dispatch (hook : List Nat → List Nat → Int) (flag : Bool)
    (m : mechanism_t) (name value rest : List Nat) (hn : name.length ≤ 255)
    (hv : value.length < 2 ^ 32)
    (hd : dispatch_ok m.options.type m.options.recv_routing_id hook name value = true) :
    ∃ m' : mechanism_t,
      parse_metadata hook m (encode_property name value ++ rest) flag =
        parse_metadata hook m' rest flag ∧
      m'.options = m.options ∧
      (flag = true → m'.zap_properties = dict_insert m.zap_properties name value ∧
        m'.zmtp_properties = m.zmtp_properties) ∧
      (flag = false → m'.zmtp_properties = dict_insert m.zmtp_properties name value ∧
        m'.zap_properties = m.zap_properties) := by
  rw [parse_metadata_encode_cons hook flag m name value rest hn hv]
  by_cases hid : name = ZMTP_PROPERTY_IDENTITY ∧ m.options.recv_routing_id
  · rw [if_pos hid]
    refine ⟨_, rfl, by simp, ?_, ?_⟩ <;> (intro hf; subst hf; simp)
  rw [if_neg hid]
  by_cases hst : name = ZMTP_PROPERTY_SOCKET_TYPE
  · have hchk : check_socket_type m.options.type value = true := by
      simp only [dispatch_ok] at hd
      rwa [if_neg hid, if_pos hst] at hd
    rw [if_pos hst, if_pos hchk]
    refine ⟨_, rfl, by simp, ?_, ?_⟩ <;> (intro hf; subst hf; simp)
  · have hrc : ¬ hook name value = -1 := by
      simp only [dispatch_ok] at hd
      rw [if_neg hid, if_neg hst] at hd
      simpa using hd
    rw [if_neg hst, if_neg hrc]
    refine ⟨_, rfl, by simp, ?_, ?_⟩ <;> (intro hf; subst hf; simp)

/-! Claim theorems. -/

/-- C1 (counterexample): the buffer [1, 65] is not a concatenation of complete
well-formed properties consuming the range with zero remainder (its single
truncated property has a name but no value length field), yet `parse_metadata`
returns success on it instead of failing with ProtocolError. -/
theorem parse_metadata_succeeds_on_non_property_list :
    spec_property_list [1, 65] = false ∧
    (parse_metadata property mech0 [1, 65] false).1 = ParseStatus.ok := by
  decide

/-- C1 (amended): for every hook, mechanism, buffer and flag, `parse_metadata`
returns success exactly when every decoded property dispatches successfully
and the remainder left by the greedy left-to-right scan is benign — empty, a
name-length byte plus a name that exactly exhausts the buffer, or a complete
header (name and value length field) ending the buffer while declaring a
positive value length; when every decoded property dispatches successfully
and the remainder is not benign, it fails with ProtocolError. -/
theorem parse_metadata_success_iff :
    ∀ (hook : List Nat → List Nat → Int) (m : mechanism_t) (ptr : List Nat) (flag : Bool),
      ((parse_metadata hook m ptr flag).1 = ParseStatus.ok ↔
        ((∀ p ∈ (frames ptr).1,
            dispatch_ok m.options.type m.options.recv_routing_id hook p.1 p.2 = true) ∧
          benign_tail (frames ptr).2 = true)) ∧
      (((∀ p ∈ (frames ptr).1,
          dispatch_ok m.options.type m.options.recv_routing_id hook p.1 p.2 = true) ∧
        benign_tail (frames ptr).2 = false) →
        (parse_metadata hook m ptr flag).1 = ParseStatus.errProtocol) := by
  intro hook m ptr flag
  obtain ⟨h1, h2, -, -⟩ := parse_loop_frames hook flag ptr.length ptr m le_rfl
  exact ⟨h1, fun hx => h2 hx.1 hx.2⟩

/-- C1 (witness): a single stray byte is rejected as a protocol error, through
the amended characterization applied at the buffer [5]. -/
theorem parse_metadata_success_iff_witness :
    (parse_metadata property mech0 [5] false).1 = ParseStatus.errProtocol :=
  (parse_metadata_success_iff property mech0 [5] false).2 (by decide)

/-- C2: `check_socket_type` implements exactly the compatibility table of the
spec (section 4.3): it agrees with the table on every local role code and
every peer role name, accepts (REQ, "REP"), (PAIR, "PAIR"), (DGRAM, "DGRAM"),
rejects (REQ, "PUB"), and a local role with no table row — STREAM — accepts
no peer role name at all. -/
theorem check_socket_type_matches_table :
    (∀ t peer, check_socket_type t peer = spec_compatibility t peer) ∧
    check_socket_type ZMQ_REQ (strBytes "REP") = true ∧
    check_socket_type ZMQ_PAIR (strBytes "PAIR") = true ∧
    check_socket_type ZMQ_DGRAM (strBytes "DGRAM") = true ∧
    check_socket_type ZMQ_REQ (strBytes "PUB") = false ∧
    (∀ peer, check_socket_type ZMQ_STREAM peer = false) := by
  refine ⟨?_, by decide, by decide, by decide, by decide, fun peer => rfl⟩
  intro t peer
  by_cases h : t < 19
  · interval_cases t <;> rfl
  · unfold check_socket_type spec_compatibility ZMQ_REQ ZMQ_REP ZMQ_DEALER ZMQ_ROUTER
      ZMQ_PUSH ZMQ_PULL ZMQ_PUB ZMQ_SUB ZMQ_XPUB ZMQ_XSUB ZMQ_PAIR ZMQ_SERVER ZMQ_CLIENT
      ZMQ_RADIO ZMQ_DISH ZMQ_GATHER ZMQ_SCATTER ZMQ_DGRAM
    have n0 : ¬(t = 0) := by omega
    have n1 : ¬(t = 1) := by omega
    have n2 : ¬(t = 2) := by omega
    have n3 : ¬(t = 3) := by omega
    have n4 : ¬(t = 4) := by omega
    have n5 : ¬(t = 5) := by omega
    have n6 : ¬(t = 6) := by omega
    have n7 : ¬(t = 7) := by omega
    have n8 : ¬(t = 8) := by omega
    have n9 : ¬(t = 9) := by omega
    have n10 : ¬(t = 10) := by omega
    have n12 : ¬(t = 12) := by omega
    have n13 : ¬(t = 13) := by omega
    have n14 : ¬(t = 14) := by omega
    have n15 : ¬(t = 15) := by omega
    have n16 : ¬(t = 16) := by omega
    have n17 : ¬(t = 17) := by omega
    have n18 : ¬(t = 18) := by omega
    simp only [if_neg n0, if_neg n1, if_neg n2, if_neg n3, if_neg n4, if_neg n5, if_neg n6, if_neg n7, if_neg n8, if_neg n9, if_neg n10, if_neg n12, if_neg n13, if_neg n14, if_neg n15, if_neg n16, if_neg n17, if_neg n18]

/-- C3 (counterexample): the pair ("Socket-Type", "PUB") is within the claimed
bounds, but running parse_metadata on exactly its encoding does not succeed
for a mechanism with local role REQ: the dispatch of the decoded Socket-Type
property fails the compatibility check, so there is no universal round-trip. -/
theorem property_roundtrip_fails_on_incompatible_socket_type :
    ZMTP_PROPERTY_SOCKET_TYPE.length ≤ 255 ∧
    (strBytes "PUB").length ≤ 2 ^ 31 - 1 ∧
    (parse_metadata property mechREQ
      (encode_property ZMTP_PROPERTY_SOCKET_TYPE (strBytes "PUB")) false).1 =
      ParseStatus.errInvalidSocketType := by
  decide

/-- C3 (amended): for every (name, value) with |name| ≤ 255 and
|value| ≤ 2^31-1, add_property writes and returns exactly
1 + |name| + 4 + |value| bytes, and — provided dispatching (name, value)
succeeds for the mechanism, which holds for every property except a
"Socket-Type" whose value is incompatible with the local role or one rejected
by the hook — parse_metadata on exactly those bytes succeeds, decodes exactly
the one pair (name, value) back, and inserts it into the selected
dictionary. -/
theorem add_property_parse_roundtrip (name value : List Nat) (m : mechanism_t)
    (hn : name.length ≤ 255) (hv : value.length ≤ 2 ^ 31 - 1)
    (hd : dispatch_ok m.options.type m.options.recv_routing_id property name value = true) :
    add_property name value = some (encode_property name value) ∧
    (encode_property name value).length = property_len name.length value.length ∧
    frames (encode_property name value) = ([(name, value)], []) ∧
    (parse_metadata property m (encode_property name value) false).1 = ParseStatus.ok ∧
    (parse_metadata property m (encode_property name value) false).2.zmtp_properties =
      dict_insert m.zmtp_properties name value := by
  have hb : (2 : Nat) ^ 31 - 1 = 0x7FFFFFFF := by norm_num
  have hb2 : (0x7FFFFFFF : Nat) < 2 ^ 32 := by norm_num
  have hv32 : value.length < 2 ^ 32 := by omega
  obtain ⟨m', hstep, -, -, hfalse⟩ :=
    parse_metadata_encode_dispatch property false m name value [] hn hv32 hd
  rw [List.append_nil] at hstep
  refine ⟨?_, encode_property_length name value, ?_, ?_, ?_⟩
  · unfold add_property
    rw [if_pos hn, if_pos (by omega)]
  · have hfe := frames_encode_cons name value [] hn hv32
    rw [List.append_nil, frames_nil] at hfe
    exact hfe
  · rw [hstep, parse_metadata_nil]
  · rw [hstep, parse_metadata_nil]
    exact (hfalse rfl).1

/-- C3 (witness): the amended round-trip applied to the concrete pair
("a", "xyz") and the PAIR mechanism. -/
theorem add_property_parse_roundtrip_witness :
    add_property (strBytes "a") (strBytes "xyz") =
      some (encode_property (strBytes "a") (strBytes "xyz")) ∧
    (encode_property (strBytes "a") (strBytes "xyz")).length =
      property_len (strBytes "a").length (strBytes "xyz").length ∧
    frames (encode_property (strBytes "a") (strBytes "xyz")) =
      ([(strBytes "a", strBytes "xyz")], []) ∧
    (parse_metadata property mech0
      (encode_property (strBytes "a") (strBytes "xyz")) false).1 = ParseStatus.ok ∧
    (parse_metadata property mech0
      (encode_property (strBytes "a") (strBytes "xyz")) false).2.zmtp_properties =
      dict_insert mech0.zmtp_properties (strBytes "a") (strBytes "xyz") :=
  add_property_parse_roundtrip (strBytes "a") (strBytes "xyz") mech0
    (by decide) (by decide) (by decide)

/-- C4 (counterexample): a buffer declaring value length 2^31 and supplying
exactly that many value bytes parses successfully and records in the wire
dictionary a property whose value length 2^31 exceeds 2^31 - 1 — the decoder
has no 2^31-1 bound. -/
theorem parse_metadata_accepts_value_beyond_two_pow_31 :
    (parse_metadata property mech0
      (0 :: 128 :: 0 :: 0 :: 0 :: List.replicate (2 ^ 31) 0) false).1 = ParseStatus.ok ∧
    dict_find (parse_metadata property mech0
      (0 :: 128 :: 0 :: 0 :: 0 :: List.replicate (2 ^ 31) 0) false).2.zmtp_properties [] =
      some (List.replicate (2 ^ 31) 0) ∧
    2 ^ 31 - 1 < (List.replicate (2 ^ 31) (0 : Nat)).length := by
  have hlenrep : (List.replicate (2 ^ 31) (0 : Nat)).length = 2 ^ 31 :=
    List.length_replicate _ _
  have hput : put_uint32 (2 ^ 31) = [128, 0, 0, 0] := by
    unfold put_uint32
    norm_num
  have hbe : (0 :: 128 :: 0 :: 0 :: 0 :: List.replicate (2 ^ 31) 0 : List Nat) =
      encode_property [] (List.replicate (2 ^ 31) 0) := by
    unfold encode_property
    rw [List.length_nil, List.nil_append, hlenrep, hput]
    rfl
  have hd : dispatch_ok mech0.options.type mech0.options.recv_routing_id property
      [] (List.replicate (2 ^ 31) 0) = true := by
    simp only [dispatch_ok]
    rw [if_neg (fun hx => by exact absurd hx.1 (by decide)), if_neg (by decide)]
    rfl
  obtain ⟨m', hstep, -, -, hfalse⟩ :=
    parse_metadata_encode_dispatch property false mech0 [] (List.replicate (2 ^ 31) 0) []
      (by simp) (by rw [hlenrep]; norm_num) hd
  rw [List.append_nil] at hstep
  rw [hbe, hstep, parse_metadata_nil]
  obtain ⟨hz, -⟩ := hfalse rfl
  refine ⟨rfl, ?_, by rw [hlenrep]; norm_num⟩
  rw [hz]
  have hnone : dict_find mech0.zmtp_properties [] = none := rfl
  unfold dict_insert
  rw [hnone, if_neg (by simp)]
  simp only [dict_find]
  rw [if_pos trivial]

/-- C4 (amended): the encoder rejects out-of-bounds properties as a fatal
contract violation (modelled none), and the decoder never records a property
whose value length reaches 2^32 — but declared lengths in [2^31, 2^32-1] are
accepted whenever that many bytes follow, so the decoder bound is 2^32-1,
not 2^31-1. -/
theorem codec_length_bounds :
    (∀ name value : List Nat, 255 < name.length ∨ 0x7FFFFFFF < value.length →
      add_property name value = none) ∧
    (∀ (hook : List Nat → List Nat → Int) (m : mechanism_t) (ptr : List Nat) (flag : Bool)
      (k w : List Nat),
      (dict_find (parse_metadata hook m ptr flag).2.zap_properties k = some w →
        dict_find m.zap_properties k = some w ∨ w.length < 2 ^ 32) ∧
      (dict_find (parse_metadata hook m ptr flag).2.zmtp_properties k = some w →
        dict_find m.zmtp_properties k = some w ∨ w.length < 2 ^ 32)) := by
  constructor
  · intro name value h
    unfold add_property
    rcases h with h | h
    · rw [if_neg (by omega)]
    · by_cases hn : name.length ≤ 255
      · rw [if_pos hn, if_neg (by omega)]
      · rw [if_neg hn]
  · intro hook m ptr flag k w
    obtain ⟨-, -, h3, h4⟩ := parse_loop_state hook flag ptr.length m ptr
    exact ⟨h3 k w, h4 k w⟩

/-- C4 (witness): the encoder aborts on a 256-byte name, and a recorded
binding of the wire dictionary after a concrete successful parse satisfies
the 2^32 bound. -/
theorem codec_length_bounds_witness :
    add_property (List.replicate 256 0) [] = none ∧
    (dict_find mech0.zmtp_properties (strBytes "a") = some (strBytes "x") ∨
      (strBytes "x").length < 2 ^ 32) :=
  ⟨codec_length_bounds.1 (List.replicate 256 0) []
      (Or.inl (by rw [List.length_replicate]; norm_num)),
    (codec_length_bounds.2 property mech0
      (encode_property (strBytes "a") (strBytes "x")) false (strBytes "a")
      (strBytes "x")).2 (by decide)⟩

/-- C5 (counterexample): calling set_user_id twice leaves the
authentication-facing dictionary bound to the FIRST value, not the most
recently inserted one: the insert at the heart of set_user_id (and of
parse_metadata) does not overwrite an existing key. -/
theorem user_id_dictionary_keeps_first_value :
    dict_find (set_user_id (set_user_id mech0 (strBytes "a")) (strBytes "b")).zap_properties
      ZMQ_MSG_PROPERTY_USER_ID = some (strBytes "a") ∧
    strBytes "a" ≠ strBytes "b" := by
  decide

/-- C5 (amended): keys are unique and the FIRST write wins: an insert with an
already present key leaves the dictionary unchanged, so after set_user_id with
"User-Id" already present the dictionary still maps it to the earlier value
(the user_id blob itself is overwritten), and after parse_metadata decodes two
properties with the same name in one buffer the dictionary maps that name to
the first of the two values. -/
theorem property_dictionary_first_write_wins :
    (∀ (d : dict_t) (k v w : List Nat), dict_find d k = some w →
      dict_find (dict_insert d k v) k = some w) ∧
    (∀ (m : mechanism_t) (data w : List Nat),
      dict_find m.zap_properties ZMQ_MSG_PROPERTY_USER_ID = some w →
      (set_user_id m data).zap_properties = m.zap_properties ∧
      (set_user_id m data).user_id = data) ∧
    (∀ (name v1 v2 : List Nat) (m : mechanism_t),
      name.length ≤ 255 → v1.length < 2 ^ 32 → v2.length < 2 ^ 32 →
      dispatch_ok m.options.type m.options.recv_routing_id property name v1 = true →
      dispatch_ok m.options.type m.options.recv_routing_id property name v2 = true →
      dict_find m.zmtp_properties name = none →
      (parse_metadata property m (encode_property name v1 ++ encode_property name v2)
        false).1 = ParseStatus.ok ∧
      dict_find (parse_metadata property m
        (encode_property name v1 ++ encode_property name v2) false).2.zmtp_properties
        name = some v1) := by
  refine ⟨dict_find_insert_of_found, ?_, ?_⟩
  · intro m data w hw
    refine ⟨?_, rfl⟩
    unfold set_user_id
    rw [dict_insert_of_found _ _ _ (by rw [hw]; rfl)]
  · intro name v1 v2 m hn hv1 hv2 hd1 hd2 hnone
    obtain ⟨m1, s1, o1, -, f1⟩ :=
      parse_metadata_encode_dispatch property false m name v1 (encode_property name v2)
        hn hv1 hd1
    obtain ⟨hm1z, -⟩ := f1 rfl
    have hd2' : dispatch_ok m1.options.type m1.options.recv_routing_id property name v2 =
        true := by
      rw [o1]
      exact hd2
    obtain ⟨m2, s2, o2, -, f2⟩ :=
      parse_metadata_encode_dispatch property false m1 name v2 [] hn hv2 hd2'
    obtain ⟨hm2z, -⟩ := f2 rfl
    rw [List.append_nil] at s2
    have hins1 : dict_insert m.zmtp_properties name v1 = (name, v1) :: m.zmtp_properties := by
      unfold dict_insert
      rw [hnone, if_neg (by simp)]
    have hfind1 : dict_find (dict_insert m.zmtp_properties name v1) name = some v1 := by
      rw [hins1]
      unfold dict_find
      rw [if_pos rfl]
    have hins2 : dict_insert m1.zmtp_properties name v2 = m1.zmtp_properties := by
      apply dict_insert_of_found
      rw [hm1z, hfind1]
      rfl
    rw [s1, s2, parse_metadata_nil]
    refine ⟨rfl, ?_⟩
    rw [hm2z, hins2, hm1z, hfind1]

/-- C5 (witness): the amended statement applied to concrete inputs: a mechanism
whose dictionary already binds "User-Id", and a buffer carrying the name "k"
twice with different values. -/
theorem property_dictionary_first_write_wins_witness :
    (set_user_id (set_user_id mech0 (strBytes "u")) (strBytes "w")).zap_properties =
      (set_user_id mech0 (strBytes "u")).zap_properties ∧
    (parse_metadata property mech0
      (encode_property (strBytes "k") (strBytes "p") ++
        encode_property (strBytes "k") (strBytes "q")) false).1 = ParseStatus.ok ∧
    dict_find (parse_metadata property mech0
      (encode_property (strBytes "k") (strBytes "p") ++
        encode_property (strBytes "k") (strBytes "q")) false).2.zmtp_properties
      (strBytes "k") = some (strBytes "p") :=
  ⟨(property_dictionary_first_write_wins.2.1 (set_user_id mech0 (strBytes "u"))
      (strBytes "w") (strBytes "u") (by decide)).1,
    property_dictionary_first_write_wins.2.2 (strBytes "k") (strBytes "p")
      (strBytes "q") mech0 (by decide) (by decide) (by decide) (by decide) (by decide)
      (by decide)⟩

theorem name_header_drop (name tail : List Nat) (hn : name.length ≤ 255) :
    (name ++ tail).drop (name.length % 256) = tail := by
  rw [Nat.mod_eq_of_lt (by omega)]
  exact drop_app name tail

/-- C6 (counterexample): the buffer [0, 0, 0, 0, 1] is a single property whose
final (and only) value byte is missing — name length 0, declared value length
1, zero value bytes — yet parse_metadata succeeds on it instead of failing
with ProtocolError. -/
theorem parse_metadata_accepts_missing_final_value_byte :
    (parse_metadata property mech0 [0, 0, 0, 0, 1] false).1 = ParseStatus.ok ∧
    (parse_metadata property mech0 [0, 0, 0, 0, 1] false).1 ≠ ParseStatus.errProtocol := by
  decide

/-- C6 (amended): a buffer that is a single property missing its last value
byte fails with ProtocolError provided the declared value length is at least 2
(at least one value byte is still present); when the declared value length is
1 and no value byte follows, the parse succeeds instead. A buffer that is one
fully valid property whose dispatch succeeds followed by exactly one stray
byte fails with ProtocolError, the same as multi-byte truncation. -/
theorem parse_metadata_truncation_behaviour :
    (∀ (hook : List Nat → List Nat → Int) (m : mechanism_t) (flag : Bool)
      (name value : List Nat), name.length ≤ 255 → 2 ≤ value.length →
      value.length < 2 ^ 32 →
      (parse_metadata hook m
        (name.length :: (name ++ (put_uint32 value.length ++ value.dropLast))) flag).1 =
        ParseStatus.errProtocol) ∧
    (∀ (hook : List Nat → List Nat → Int) (m : mechanism_t) (flag : Bool)
      (name value : List Nat) (stray : Nat), name.length ≤ 255 →
      value.length < 2 ^ 32 →
      dispatch_ok m.options.type m.options.recv_routing_id hook name value = true →
      (parse_metadata hook m (encode_property name value ++ [stray]) flag).1 =
        ParseStatus.errProtocol) ∧
    (∀ (hook : List Nat → List Nat → Int) (m : mechanism_t) (flag : Bool)
      (name : List Nat), name.length ≤ 255 →
      (parse_metadata hook m (name.length :: (name ++ put_uint32 1)) flag).1 =
        ParseStatus.ok) := by
  refine ⟨?_, ?_, ?_⟩
  · intro hook m flag name value hn hv2 hv
    have hdropn : (name ++ (put_uint32 value.length ++ value.dropLast)).drop
        (name.length % 256) = put_uint32 value.length ++ value.dropLast :=
      name_header_drop name _ hn
    have hdrop4 : (put_uint32 value.length ++ value.dropLast).drop 4 = value.dropLast := by
      simp [put_uint32]
    have hget : get_uint32 ((name ++ (put_uint32 value.length ++ value.dropLast)).drop
        (name.length % 256)) = value.length := by
      rw [hdropn, get_uint32_put_uint32, Nat.mod_eq_of_lt hv]
    have hRlen : (name ++ (put_uint32 value.length ++ value.dropLast)).length =
        name.length + 4 + (value.length - 1) := by
      simp [put_uint32, List.length_dropLast]
      omega
    unfold parse_metadata
    rw [List.length_cons]
    rw [parse_loop_break3 hook flag _ m name.length _
      (by rw [List.length_cons, hRlen]; omega)
      (by rw [hRlen]; have : name.length % 256 ≤ name.length := Nat.mod_le _ _; omega)
      (by rw [hdropn]; simp [put_uint32, List.length_dropLast])
      (by rw [hget, hdropn, hdrop4, List.length_dropLast]; omega)]
    rw [if_pos (by rw [hdropn, hdrop4, List.length_dropLast]; omega)]
  · intro hook m flag name value stray hn hv hd
    obtain ⟨m', hstep, -, -, -⟩ :=
      parse_metadata_encode_dispatch hook flag m name value [stray] hn hv hd
    rw [hstep, parse_metadata_single]
  · intro hook m flag name hn
    have hdropn : (name ++ put_uint32 1).drop (name.length % 256) = put_uint32 1 :=
      name_header_drop name _ hn
    have hget : get_uint32 ((name ++ put_uint32 1).drop (name.length % 256)) = 1 := by
      rw [hdropn]
      decide
    have hRlen : (name ++ put_uint32 1).length = name.length + 4 := by
      simp [put_uint32]
    unfold parse_metadata
    rw [List.length_cons]
    rw [parse_loop_break3 hook flag _ m name.length _
      (by rw [List.length_cons, hRlen]; omega)
      (by rw [hRlen]; have : name.length % 256 ≤ name.length := Nat.mod_le _ _; omega)
      (by rw [hdropn]; simp [put_uint32])
      (by rw [hget, hdropn]; simp [put_uint32])]
    rw [if_neg (by rw [hdropn]; simp [put_uint32])]

/-- C6 (witness): the amended truncation behaviour at concrete inputs: the
property ("n", [7, 8]) missing its final value byte, and the valid property
("n", [7]) followed by the stray byte 9. -/
theorem parse_metadata_truncation_behaviour_witness :
    (parse_metadata property mech0
      ((strBytes "n").length :: (strBytes "n" ++ (put_uint32 [7, 8].length ++
        [7, 8].dropLast))) false).1 = ParseStatus.errProtocol ∧
    (parse_metadata property mech0
      (encode_property (strBytes "n") [7] ++ [9]) false).1 = ParseStatus.errProtocol ∧
    (parse_metadata property mech0
      ((strBytes "n").length :: (strBytes "n" ++ put_uint32 1)) false).1 =
      ParseStatus.ok :=
  ⟨parse_metadata_truncation_behaviour.1 property mech0 false (strBytes "n") [7, 8]
      (by decide) (by decide) (by decide),
    parse_metadata_truncation_behaviour.2.1 property mech0 false (strBytes "n") [7] 9
      (by decide) (by decide) (by decide),
    parse_metadata_truncation_behaviour.2.2 property mech0 false (strBytes "n")
      (by decide)⟩

/-- C7: dispatch failures short-circuit the parse. When the first property of
the remaining buffer is a "Socket-Type" whose value fails the compatibility
check, parse_metadata returns immediately with InvalidSocketType (errno
EINVAL) and the mechanism state is exactly the state before the property:
nothing later in the buffer is decoded, dispatched or inserted, and the
Socket-Type property itself is not inserted either. When the hook rejects a
property, the parse likewise stops at once with the hook's failure. The
InvalidSocketType outcome is distinct from ProtocolError. -/
theorem parse_metadata_short_circuit :
    (∀ (hook : List Nat → List Nat → Int) (m : mechanism_t) (flag : Bool)
      (value rest : List Nat), value.length < 2 ^ 32 →
      check_socket_type m.options.type value = false →
      parse_metadata hook m
        (encode_property ZMTP_PROPERTY_SOCKET_TYPE value ++ rest) flag =
        (ParseStatus.errInvalidSocketType, m)) ∧
    (∀ (hook : List Nat → List Nat → Int) (m : mechanism_t) (flag : Bool)
      (name value rest : List Nat), name.length ≤ 255 → value.length < 2 ^ 32 →
      ¬(name = ZMTP_PROPERTY_IDENTITY ∧ m.options.recv_routing_id) →
      name ≠ ZMTP_PROPERTY_SOCKET_TYPE → hook name value = -1 →
      parse_metadata hook m (encode_property name value ++ rest) flag =
        (ParseStatus.errHook, m)) ∧
    ParseStatus.errInvalidSocketType ≠ ParseStatus.errProtocol := by
  refine ⟨?_, ?_, by decide⟩
  · intro hook m flag value rest hv hchk
    rw [parse_metadata_encode_cons hook flag m ZMTP_PROPERTY_SOCKET_TYPE value rest
      (by decide) hv]
    rw [if_neg (fun hx => absurd hx.1 (by decide)), if_pos rfl,
      if_neg (by rw [hchk]; exact Bool.false_ne_true)]
  · intro hook m flag name value rest hn hv hni hns hrc
    rw [parse_metadata_encode_cons hook flag m name value rest hn hv]
    rw [if_neg hni, if_neg hns, if_pos hrc]

/-- C7 (witness): the short-circuit applied to concrete inputs: a REQ
mechanism receiving Socket-Type "PUB" followed by a stray byte, and an
always-rejecting hook receiving the property ("a", "x") followed by a stray
byte. -/
theorem parse_metadata_short_circuit_witness :
    parse_metadata property mechREQ
      (encode_property ZMTP_PROPERTY_SOCKET_TYPE (strBytes "PUB") ++ [9]) false =
      (ParseStatus.errInvalidSocketType, mechREQ) ∧
    parse_metadata (fun _ _ => -1) mech0
      (encode_property (strBytes "a") (strBytes "x") ++ [7]) false =
      (ParseStatus.errHook, mech0) :=
  ⟨parse_metadata_short_circuit.1 property mechREQ false (strBytes "PUB") [9]
      (by decide) (by decide),
    parse_metadata_short_circuit.2.1 (fun _ _ => -1) mech0 false (strBytes "a")
      (strBytes "x") [7] (by decide) (by decide) (by decide) (by decide) rfl⟩

/-- C8: dictionary routing. For every hook, mechanism and buffer, a parse with
the authentication flag set leaves the wire-facing dictionary untouched, and a
parse with the flag unset leaves the authentication-facing dictionary
untouched; on success the selected dictionary equals the result of inserting,
in order, every decoded property — including "Socket-Type" and "Identity" —
into its previous state. -/
theorem parse_metadata_dictionary_routing :
    ∀ (hook : List Nat → List Nat → Int) (m : mechanism_t) (ptr : List Nat),
      ((parse_metadata hook m ptr true).2.zmtp_properties = m.zmtp_properties) ∧
      ((parse_metadata hook m ptr false).2.zap_properties = m.zap_properties) ∧
      ((parse_metadata hook m ptr true).1 = ParseStatus.ok →
        (parse_metadata hook m ptr true).2.zap_properties =
          (frames ptr).1.foldl (fun d p => dict_insert d p.1 p.2) m.zap_properties) ∧
      ((parse_metadata hook m ptr false).1 = ParseStatus.ok →
        (parse_metadata hook m ptr false).2.zmtp_properties =
          (frames ptr).1.foldl (fun d p => dict_insert d p.1 p.2) m.zmtp_properties) := by
  intro hook m ptr
  obtain ⟨t1, -, -, -⟩ := parse_loop_state hook true ptr.length m ptr
  obtain ⟨-, f2, -, -⟩ := parse_loop_state hook false ptr.length m ptr
  obtain ⟨-, -, t5, -⟩ := parse_loop_frames hook true ptr.length ptr m le_rfl
  obtain ⟨-, -, -, f6⟩ := parse_loop_frames hook false ptr.length ptr m le_rfl
  exact ⟨t1 rfl, f2 rfl, fun hok => t5 hok rfl, fun hok => f6 hok rfl⟩

/-- C8 (witness): the routing statement applied to the concrete buffer
encoding ("a", "x") on the PAIR mechanism, with the success hypothesis of the
fold conjunct discharged by evaluation. -/
theorem parse_metadata_dictionary_routing_witness :
    (parse_metadata property mech0 (encode_property (strBytes "a") (strBytes "x"))
      true).2.zmtp_properties = mech0.zmtp_properties ∧
    (parse_metadata property mech0 (encode_property (strBytes "a") (strBytes "x"))
      true).2.zap_properties =
      (frames (encode_property (strBytes "a") (strBytes "x"))).1.foldl
        (fun d p => dict_insert d p.1 p.2) mech0.zap_properties :=
  ⟨(parse_metadata_dictionary_routing property mech0
      (encode_property (strBytes "a") (strBytes "x"))).1,
    (parse_metadata_dictionary_routing property mech0
      (encode_property (strBytes "a") (strBytes "x"))).2.2.1 (by decide)⟩

/-- C9: add_basic_properties writes the Socket-Type property (value: the local
role's canonical name) first, then an Identity property (value: the configured
routing identifier, possibly empty) exactly when the local role is REQ, DEALER
or ROUTER, and the total number of bytes written equals basic_properties_len.
The hypotheses are the source's own assertions: a valid role code (0..18,
asserted in socket_type_string) and a routing id within the encoder's value
bound (asserted in add_property). -/
theorem add_basic_properties_layout (opts : options_t) (ht : opts.type ≤ 18)
    (hr : opts.routing_id.length ≤ 0x7FFFFFFF) :
    add_basic_properties opts = some
      (encode_property ZMTP_PROPERTY_SOCKET_TYPE (socket_type_string opts.type) ++
        (if opts.type = ZMQ_REQ ∨ opts.type = ZMQ_DEALER ∨ opts.type = ZMQ_ROUTER then
          encode_property ZMTP_PROPERTY_IDENTITY opts.routing_id
        else [])) ∧
    (encode_property ZMTP_PROPERTY_SOCKET_TYPE (socket_type_string opts.type) ++
      (if opts.type = ZMQ_REQ ∨ opts.type = ZMQ_DEALER ∨ opts.type = ZMQ_ROUTER then
        encode_property ZMTP_PROPERTY_IDENTITY opts.routing_id
      else [])).length = basic_properties_len opts := by
  have hstg : ∀ t : Nat, t ≤ 18 → (socket_type_string t).length ≤ 255 := by
    intro t ht'
    interval_cases t <;> decide
  have hst : (socket_type_string opts.type).length ≤ 255 := hstg opts.type ht
  have e1 : add_property ZMTP_PROPERTY_SOCKET_TYPE (socket_type_string opts.type) =
      some (encode_property ZMTP_PROPERTY_SOCKET_TYPE (socket_type_string opts.type)) := by
    unfold add_property
    rw [if_pos (by decide), if_pos (le_trans hst (by norm_num))]
  have e2 : add_property ZMTP_PROPERTY_IDENTITY opts.routing_id =
      some (encode_property ZMTP_PROPERTY_IDENTITY opts.routing_id) := by
    unfold add_property
    rw [if_pos (by decide), if_pos hr]
  constructor
  · unfold add_basic_properties
    rw [e1, e2]
    dsimp only
    by_cases hc : opts.type = ZMQ_REQ ∨ opts.type = ZMQ_DEALER ∨ opts.type = ZMQ_ROUTER
    · rw [if_pos hc, if_pos hc]
    · rw [if_neg hc, if_neg hc, List.append_nil]
  · rw [List.length_append, encode_property_length]
    unfold basic_properties_len
    by_cases hc : opts.type = ZMQ_REQ ∨ opts.type = ZMQ_DEALER ∨ opts.type = ZMQ_ROUTER
    · rw [if_pos hc, if_pos hc, encode_property_length]
    · rw [if_neg hc, if_neg hc]
      rfl

/-- C9 (witness): the layout applied to a concrete ROUTER configuration with
routing id "abc" — Socket-Type first, then Identity, lengths matching — with
the role-code and length hypotheses discharged by evaluation. -/
theorem add_basic_properties_layout_witness :
    add_basic_properties (options_t.mk 6 false (strBytes "abc")) = some
      (encode_property ZMTP_PROPERTY_SOCKET_TYPE (socket_type_string 6) ++
        (if (6 : Nat) = ZMQ_REQ ∨ (6 : Nat) = ZMQ_DEALER ∨ (6 : Nat) = ZMQ_ROUTER then
          encode_property ZMTP_PROPERTY_IDENTITY (strBytes "abc")
        else [])) ∧
    (encode_property ZMTP_PROPERTY_SOCKET_TYPE (socket_type_string 6) ++
      (if (6 : Nat) = ZMQ_REQ ∨ (6 : Nat) = ZMQ_DEALER ∨ (6 : Nat) = ZMQ_ROUTER then
        encode_property ZMTP_PROPERTY_IDENTITY (strBytes "abc")
      else [])).length =
      basic_properties_len (options_t.mk 6 false (strBytes "abc")) :=
  add_basic_properties_layout (options_t.mk 6 false (strBytes "abc"))
    (by decide) (by decide)

/-- C10: parse_metadata terminates and its loop is well-founded with a linear
bound: because every iteration that does not exit the loop consumes at least
5 bytes (one name-length byte and four value-length bytes), running the loop
with only floor(length / 5) + 1 iterations of fuel already computes the same
result as parse_metadata, for every input buffer, mechanism, hook and flag. -/
theorem parse_metadata_loop_linear_fuel :
    ∀ (hook : List Nat → List Nat → Int) (m : mechanism_t) (ptr : List Nat) (flag : Bool),
      parse_metadata_loop hook flag (ptr.length / 5 + 1) m ptr =
        parse_metadata hook m ptr flag := by
  intro hook m ptr flag
  unfold parse_metadata
  apply parse_metadata_loop_congr
  · omega
  · omega
